import Mathlib

/-!
Shallow embedding of the f1-sql-mlops core subsystem: the temporal split
configuration (src/f1sqlmlops/config.py), feature export and column
classification (src/f1sqlmlops/features/export_features.py), model loading
and prediction assembly (src/f1sqlmlops/inference/predict.py,
src/f1sqlmlops/inference/batch_predict.py), and the prediction combiner of
the dashboard (app/streamlit_app.py, show_predictions_page).

Conventions of the embedding:
- pandas/NumPy row-wise operations are modelled by a short-circuiting map
  over row lists in the Except monad: a Python exception raised while a
  column is being computed aborts the whole operation, exactly as the
  first failing row aborts a DataFrame.apply.
- A probability value is a rational number; the thresholds 0.5 compared
  against probabilities are exact in both the source and the model.
- Presence or absence of a DataFrame column that the inference layer adds
  conditionally is modelled by an Option-valued field that is some/none
  uniformly across all rows of one frame, which is how column-wise
  assignment behaves in the source.
-/

/-- Short-circuiting row-wise map: the embedding of applying a Python
expression to every row of a DataFrame, where a raised exception on any
row aborts the whole column computation. -/
def mapExcept {α β ε : Type} (f : α → Except ε β) : List α → Except ε (List β)
  | [] => .ok []
  | a :: as => do
      let b ← f a
      let bs ← mapExcept f as
      pure (b :: bs)

/-- A row of the frame handed to the dashboard combiner, i.e. one row of
the predict_race output. An Option field models presence of the
corresponding DataFrame column: predict_race adds the top10 (resp. dnf)
columns only when that model is loaded. The two raw prediction fields are
the per-model predict outputs as predict_race wrote them. -/
structure PredRow where
  top10_probability : Option ℚ
  dnf_probability : Option ℚ
  top10_prediction : Option ℤ
  dnf_prediction : Option ℤ
deriving DecidableEq, Repr

/-- Access row[name] on a pandas Series: a missing column raises KeyError. -/
def seriesGet {α : Type} (name : String) (v : Option α) : Except String α :=
  match v with
  | some x => .ok x
  | none => .error ("KeyError: " ++ name)

/-- The lambda of streamlit_app.py line 205-208, applied to one row:
DNF if row dnf_probability is above 0.5, else Top-10 if row
top10_probability is above 0.5, else Outside Top-10. The Python
conditional expression evaluates the dnf access first and the top10
access only when the first test is false, which the monadic bind
reproduces. -/
def finalPredictionOfRow (r : PredRow) : Except String String := do
  let d ← seriesGet "dnf_probability" r.dnf_probability
  if d > mkRat 1 2 then
    pure "DNF"
  else do
    let t ← seriesGet "top10_probability" r.top10_probability
    if t > mkRat 1 2 then pure "Top-10" else pure "Outside Top-10"

/-- A row of the combined frame after streamlit_app.py lines 205-213: the
final_prediction column plus the two prediction columns as they stand
after being overwritten from final_prediction. -/
structure CombinedRow where
  final_prediction : String
  top10_prediction : ℤ
  dnf_prediction : ℤ
deriving DecidableEq, Repr

/-- The prediction combiner of show_predictions_page (streamlit_app.py
lines 205-213): first the final_prediction column is computed row-wise by
finalPredictionOfRow, then top10_prediction and dnf_prediction are
recomputed as the 0/1 indicator of final_prediction, replacing the raw
model outputs. -/
def combinePredictions (rows : List PredRow) : Except String (List CombinedRow) := do
  let finals ← mapExcept finalPredictionOfRow rows
  pure (finals.map (fun f =>
    { final_prediction := f
      top10_prediction := if f = "Top-10" then 1 else 0
      dnf_prediction := if f = "DNF" then 1 else 0 }))

deriving instance DecidableEq for Except

/-- The split-year fields of the Config class (config.py lines 36-42). -/
structure SplitConfig where
  trainEndYear : ℤ
  valYears : List ℤ
  testYears : List ℤ
deriving DecidableEq, Repr

/-- Loading the split-year configuration (the class body of Config,
config.py lines 36-42): the environment values are parsed into integers
and stored. The class body performs no further computation on them; in
particular no check of the three split-year conditions. The int() parse
of well-formed integer strings is elided (it cannot fail on integer
inputs); the Except result models an exception raised while the class
body runs. -/
def loadConfig (trainEndYear : ℤ) (valYears testYears : List ℤ) :
    Except String SplitConfig :=
  .ok { trainEndYear := trainEndYear, valYears := valYears, testYears := testYears }

/-- The three split-validity conditions, as asserted by the test suite
(tests/test_config.py, test_temporal_split_logic) and stated by the spec:
training ends before every validation year, every validation year is at
most every test year, and the validation and test year sets are disjoint.
Stated elementwise, which agrees with the min/max phrasing on the
nonempty year lists both phrasings presuppose. -/
def splitConfigValid (cfg : SplitConfig) : Prop :=
  (∀ y ∈ cfg.valYears, cfg.trainEndYear < y) ∧
  (∀ v ∈ cfg.valYears, ∀ u ∈ cfg.testYears, v ≤ u) ∧
  (∀ y ∈ cfg.valYears, y ∉ cfg.testYears)

instance (cfg : SplitConfig) : Decidable (splitConfigValid cfg) := by
  unfold splitConfigValid; infer_instance

/-- One row of main_marts.fct_features_pre_race, restricted to the
columns the export and split logic reads: the ordering keys of the query
and the year used by the split masks. The remaining feature and label
columns are never inspected by the code under verification. -/
structure FeatureRow where
  result_id : ℤ
  year : ℤ
  round : ℤ
deriving DecidableEq, Repr

/-- The source feature table: its column schema together with its rows. -/
structure FeatureTable where
  cols : List String
  rows : List FeatureRow
deriving DecidableEq, Repr

/-- Columns named in the export query; the database raises a binder
error when any of them is absent from the table schema. -/
def requiredQueryCols : List String := ["year", "round", "result_id"]

/-- The ORDER BY key of the export query: (year, round, result_id),
lexicographic. -/
def rowLe (a b : FeatureRow) : Prop :=
  a.year < b.year ∨
    (a.year = b.year ∧ (a.round < b.round ∨
      (a.round = b.round ∧ a.result_id ≤ b.result_id)))

instance : DecidableRel rowLe := by
  unfold rowLe; infer_instance

/-- SELECT * FROM main_marts.fct_features_pre_race ORDER BY year, round,
result_id (export_features.py lines 37-44): the rows sorted by the ORDER
BY key, or a binder error when a column named in the query is missing
from the schema. -/
def runFeatureQuery (t : FeatureTable) : Except String (List FeatureRow) :=
  if requiredQueryCols.all (fun c => t.cols.contains c) then
    .ok (t.rows.insertionSort rowLe)
  else
    .error "Binder Error: column referenced by the feature query does not exist"

/-- The three temporal splits returned by export_features. -/
structure Splits where
  train : List FeatureRow
  val : List FeatureRow
  test : List FeatureRow
deriving DecidableEq, Repr

/-- export_features (export_features.py lines 18-79): loads the feature
table through the query, then filters it with the three year masks
(lines 46-55). Any exception raised while the frame is being produced is
logged and re-raised (lines 75-79), which Except.error models; the CSV
side output and the logging are elided, as neither affects the returned
splits. The rows matching each mask are returned as copies. -/
def export_features (cfg : SplitConfig) (t : FeatureTable) : Except String Splits := do
  let df ← runFeatureQuery t
  pure { train := df.filter (fun r => decide (r.year ≤ cfg.trainEndYear))
         val := df.filter (fun r => cfg.valYears.contains r.year)
         test := df.filter (fun r => cfg.testYears.contains r.year) }

/-- The fixed exclusion set of get_feature_columns (export_features.py
lines 93-104). The source stores it as a set; only membership is ever
used. -/
def exclude_cols : List String :=
  ["result_id", "race_id", "driver_id", "constructor_id", "circuit_id",
   "year", "round", "race_date", "target_top_10", "target_dnf"]

/-- get_feature_columns (export_features.py lines 82-109), embedded over
the column-name list of the input frame, the only part of the frame the
function reads: every column not in the exclusion set is a feature, in
input order, and the target columns are the fixed pair. -/
def get_feature_columns (cols : List String) : List String × List String :=
  (cols.filter (fun c => !exclude_cols.contains c), ["target_top_10", "target_dnf"])

/-- A trained classifier as the inference layer uses it (an opaque pickle
in the source): predict_proba yields one probability row per input row,
all of width shape1 (the column count of the predict_proba matrix), and
predict yields one label per input row. The input type is abstract; the
source applies models to the feature-column projection of the frame,
which the embedding leaves inside the row type. -/
structure Model (ρ : Type) where
  shape1 : ℕ
  proba : ρ → List ℚ
  pred : ρ → ℤ

/-- The name-to-model dictionary built by load_models: each model is
present or absent independently. -/
structure Models (ρ : Type) where
  top10 : Option (Model ρ)
  dnf : Option (Model ρ)

/-- load_models (predict.py lines 18-54): each classifier file that
exists on disk contributes an entry (modelled by the Option arguments);
an empty dictionary, i.e. both files absent, raises FileNotFoundError
(lines 51-52). A single absent model is only logged. -/
def load_models {ρ : Type} (top10_on_disk dnf_on_disk : Option (Model ρ)) :
    Except String (Models ρ) :=
  if top10_on_disk.isNone && dnf_on_disk.isNone then
    .error "No trained models found"
  else
    .ok { top10 := top10_on_disk, dnf := dnf_on_disk }

/-- One row of the predict_race output frame: the input row (the frame
copy of line 74) plus the per-model probability and prediction columns,
present only when the corresponding model is in the dictionary. -/
structure PredOutRow (ρ : Type) where
  base : ρ
  top10_probability : Option ℚ
  top10_prediction : Option ℤ
  dnf_probability : Option ℚ
  dnf_prediction : Option ℤ

/-- Selecting the positive-class probability from one predict_proba row
(predict.py lines 79-83 and 91-95): column 0 when the matrix has a single
column (the degenerate single-class case), column 1 otherwise; an
out-of-bounds column access raises, as the NumPy slice would. -/
def positiveProba {ρ : Type} (m : Model ρ) (r : ρ) : Except String ℚ :=
  if m.shape1 = 1 then
    match (m.proba r)[0]? with
    | some p => .ok p
    | none => .error "IndexError: index 0 is out of bounds"
  else
    match (m.proba r)[1]? with
    | some p => .ok p
    | none => .error "IndexError: index 1 is out of bounds"

/-- The frame copy predict_race starts from (predict.py line 74): the
input row with none of the prediction columns yet present. -/
def initOutRow {ρ : Type} (r : ρ) : PredOutRow ρ :=
  { base := r, top10_probability := none, top10_prediction := none,
    dnf_probability := none, dnf_prediction := none }

/-- The top-10 block of predict_race (predict.py lines 77-84), applied to
one row: assigns the probability column and the raw predict column. -/
def top10Stage {ρ : Type} (m : Model ρ) (o : PredOutRow ρ) :
    Except String (PredOutRow ρ) := do
  let p ← positiveProba m o.base
  pure { o with top10_probability := some p,
                top10_prediction := some (m.pred o.base) }

/-- The DNF block of predict_race (predict.py lines 89-96), applied to
one row: assigns the probability column and the raw predict column. -/
def dnfStage {ρ : Type} (m : Model ρ) (o : PredOutRow ρ) :
    Except String (PredOutRow ρ) := do
  let p ← positiveProba m o.base
  pure { o with dnf_probability := some p,
                dnf_prediction := some (m.pred o.base) }

/-- predict_race (predict.py lines 57-100): starts from a copy of the
input frame, then, for each of the two models that is present in the
dictionary, adds that model's probability column (positive class, with
the single-column fallback) and its raw predict output column. An absent
model only logs a warning and adds nothing. -/
def predict_race {ρ : Type} (rows : List ρ) (ms : Models ρ) :
    Except String (List (PredOutRow ρ)) := do
  let out := rows.map initOutRow
  let out ← match ms.top10 with
    | some m => mapExcept (top10Stage m) out
    | none => pure out
  let out ← match ms.dnf with
    | some m => mapExcept (dnfStage m) out
    | none => pure out
  pure out

/-- The column list of the predict_race output frame: the input columns
plus the pairs added for each present model, in assignment order. -/
def predict_race_columns {ρ : Type} (baseCols : List String) (ms : Models ρ) :
    List String :=
  baseCols
    ++ (match ms.top10 with
        | some _ => ["top10_probability", "top10_prediction"]
        | none => [])
    ++ (match ms.dnf with
        | some _ => ["dnf_probability", "dnf_prediction"]
        | none => [])

/-- The hard-coded output column list of predict_from_db (predict.py
lines 150-156). -/
def db_output_cols : List String :=
  ["race_id", "year", "round", "driver_id",
   "grid_position", "qualifying_position",
   "top10_probability", "top10_prediction",
   "dnf_probability", "dnf_prediction",
   "target_top_10", "target_dnf"]

/-- The columns of the frame predict_from_db returns (predict.py line
157): the hard-coded list restricted to the columns present in the
predict_race output. -/
def predict_from_db_cols (predCols : List String) : List String :=
  db_output_cols.filter (fun c => predCols.contains c)

/-- batch_predict (batch_predict.py lines 57-91) returns the
predict_race frame unchanged, so its output columns are exactly the
predict_race output columns; it never adds a combined column. -/
def batch_predict_columns {ρ : Type} (baseCols : List String) (ms : Models ρ) :
    List String :=
  predict_race_columns baseCols ms

/-- The column index positiveProba reads: 0 in the single-column case,
1 otherwise. -/
def probaIndex {ρ : Type} (m : Model ρ) : ℕ :=
  if m.shape1 = 1 then 0 else 1

/-- The value positiveProba returns when the read is in bounds. -/
def positiveProbaVal {ρ : Type} (m : Model ρ) (r : ρ) : ℚ :=
  (m.proba r).getD (probaIndex m) 0

/-- The predict_race output row for one input row, under a given model
dictionary, when every probability read is in bounds. -/
def expectedPredRow {ρ : Type} (ms : Models ρ) (r : ρ) : PredOutRow ρ :=
  { base := r
    top10_probability := ms.top10.map (fun m => positiveProbaVal m r)
    top10_prediction := ms.top10.map (fun m => m.pred r)
    dnf_probability := ms.dnf.map (fun m => positiveProbaVal m r)
    dnf_prediction := ms.dnf.map (fun m => m.pred r) }

/-- A row with the raw per-model prediction columns erased, leaving only
the probability columns: used to state that the combiner result does not
depend on the raw predictions. -/
def stripRawPredictions (r : PredRow) : PredRow :=
  { r with top10_prediction := none, dnf_prediction := none }

/-- Exactly one of the three outcome labels holds. -/
def exactlyOneLabel (s : String) : Prop :=
  (s = "Top-10" ∧ s ≠ "DNF" ∧ s ≠ "Outside Top-10") ∨
  (s = "DNF" ∧ s ≠ "Top-10" ∧ s ≠ "Outside Top-10") ∨
  (s = "Outside Top-10" ∧ s ≠ "Top-10" ∧ s ≠ "DNF")

@[simp] lemma ok_bind {ε α β : Type} (a : α) (f : α → Except ε β) :
    (Except.ok a : Except ε α) >>= f = f a := rfl

@[simp] lemma error_bind {ε α β : Type} (e : ε) (f : α → Except ε β) :
    (Except.error e : Except ε α) >>= f = .error e := rfl

@[simp] lemma pure_eq_ok {ε α : Type} (a : α) :
    (pure a : Except ε α) = .ok a := rfl

lemma mapExcept_ok {α β ε : Type} (f : α → Except ε β) (g : α → β) :
    ∀ l : List α, (∀ a ∈ l, f a = .ok (g a)) → mapExcept f l = .ok (l.map g) := by
  intro l h
  induction l with
  | nil => rfl
  | cons a as ih =>
    have ha := h a (by simp)
    have has : ∀ x ∈ as, f x = .ok (g x) := fun x hx => h x (by simp [hx])
    simp only [mapExcept, ha, ih has, List.map_cons]
    rfl

lemma mapExcept_mem {α β ε : Type} (f : α → Except ε β) :
    ∀ {l : List α} {out : List β}, mapExcept f l = .ok out →
      ∀ b ∈ out, ∃ a ∈ l, f a = .ok b := by
  intro l
  induction l with
  | nil =>
    intro out h b hb
    simp only [mapExcept] at h
    cases h
    simp at hb
  | cons a as ih =>
    intro out h b hb
    cases hf : f a with
    | error e => simp [mapExcept, hf] at h
    | ok v =>
      cases hm : mapExcept f as with
      | error e => simp [mapExcept, hf, hm] at h
      | ok vs =>
        simp only [mapExcept, hf, hm, ok_bind, pure_eq_ok, Except.ok.injEq] at h
        subst h
        rcases List.mem_cons.mp hb with rfl | hbs
        · exact ⟨a, by simp, hf⟩
        · obtain ⟨x, hx, hfx⟩ := ih hm b hbs
          exact ⟨x, by simp [hx], hfx⟩

/-- A final_prediction value the combiner lambda returns is always one
of the three labels. -/
lemma finalPrediction_label {r : PredRow} {s : String}
    (h : finalPredictionOfRow r = .ok s) :
    s = "DNF" ∨ s = "Top-10" ∨ s = "Outside Top-10" := by
  unfold finalPredictionOfRow at h
  cases hd : r.dnf_probability with
  | none => simp [hd, seriesGet] at h
  | some d =>
    simp only [hd, seriesGet, ok_bind] at h
    by_cases hdc : d > mkRat 1 2
    · simp only [hdc, if_true, reduceIte, pure_eq_ok, Except.ok.injEq] at h
      exact Or.inl h.symm
    · simp only [hdc, if_false, reduceIte] at h
      cases ht : r.top10_probability with
      | none => simp [ht, seriesGet] at h
      | some t =>
        simp only [ht, seriesGet, ok_bind] at h
        by_cases htc : t > mkRat 1 2
        · simp only [htc, if_true, reduceIte, pure_eq_ok, Except.ok.injEq] at h
          exact Or.inr (Or.inl h.symm)
        · simp only [htc, if_false, reduceIte, pure_eq_ok, Except.ok.injEq] at h
          exact Or.inr (Or.inr h.symm)

/-- The combiner lambda reads only the probability columns, so erasing
the raw prediction columns does not change its row-wise result. -/
lemma mapExcept_fPR_strip :
    ∀ l : List PredRow,
      mapExcept finalPredictionOfRow (l.map stripRawPredictions) =
        mapExcept finalPredictionOfRow l := by
  intro l
  induction l with
  | nil => rfl
  | cons a as ih =>
    simp only [List.map_cons, mapExcept, ih]
    rfl

lemma positiveProba_eq {ρ : Type} (m : Model ρ) (r : ρ)
    (h : probaIndex m < (m.proba r).length) :
    positiveProba m r = .ok (positiveProbaVal m r) := by
  unfold positiveProba positiveProbaVal probaIndex at *
  by_cases hs : m.shape1 = 1 <;>
    simp only [hs, if_true, if_false, reduceIte] at * <;>
    rw [List.getElem?_eq_getElem h] <;>
    simp [List.getD_eq_getElem?_getD, List.getElem?_eq_getElem h]

lemma top10Stage_ok {ρ : Type} (m : Model ρ) (o : PredOutRow ρ)
    (h : probaIndex m < (m.proba o.base).length) :
    top10Stage m o =
      .ok { o with top10_probability := some (positiveProbaVal m o.base),
                   top10_prediction := some (m.pred o.base) } := by
  simp only [top10Stage, positiveProba_eq m o.base h]
  rfl

lemma dnfStage_ok {ρ : Type} (m : Model ρ) (o : PredOutRow ρ)
    (h : probaIndex m < (m.proba o.base).length) :
    dnfStage m o =
      .ok { o with dnf_probability := some (positiveProbaVal m o.base),
                   dnf_prediction := some (m.pred o.base) } := by
  simp only [dnfStage, positiveProba_eq m o.base h]
  rfl

/-- Functional characterization of predict_race: when every probability
read of every present model is in bounds, the result is exactly the
row-wise expected output. -/
lemma predict_race_char {ρ : Type} (rows : List ρ) (ms : Models ρ)
    (htop : ∀ m, ms.top10 = some m → ∀ r ∈ rows, probaIndex m < (m.proba r).length)
    (hdnf : ∀ m, ms.dnf = some m → ∀ r ∈ rows, probaIndex m < (m.proba r).length) :
    predict_race rows ms = .ok (rows.map (expectedPredRow ms)) := by
  obtain ⟨t, d⟩ := ms
  unfold predict_race
  cases t with
  | none =>
    cases d with
    | none =>
      simp only [pure_bind]
      rfl
    | some m =>
      have h := hdnf m rfl
      simp only [pure_bind]
      rw [mapExcept_ok (dnfStage m)
        (fun o => { o with dnf_probability := some (positiveProbaVal m o.base),
                           dnf_prediction := some (m.pred o.base) })
        _ (by
          intro o ho
          obtain ⟨r, hr, rfl⟩ := List.mem_map.mp ho
          exact dnfStage_ok m _ (h r hr))]
      simp only [ok_bind, pure_bind, List.map_map]
      rfl
  | some m1 =>
    have h1 := htop m1 rfl
    simp only [pure_bind]
    rw [mapExcept_ok (top10Stage m1)
      (fun o => { o with top10_probability := some (positiveProbaVal m1 o.base),
                         top10_prediction := some (m1.pred o.base) })
      _ (by
        intro o ho
        obtain ⟨r, hr, rfl⟩ := List.mem_map.mp ho
        exact top10Stage_ok m1 _ (h1 r hr))]
    cases d with
    | none =>
      simp only [ok_bind, pure_bind, List.map_map]
      rfl
    | some m2 =>
      have h2 := hdnf m2 rfl
      simp only [ok_bind]
      rw [mapExcept_ok (dnfStage m2)
        (fun o => { o with dnf_probability := some (positiveProbaVal m2 o.base),
                           dnf_prediction := some (m2.pred o.base) })
        _ (by
          intro o ho
          simp only [List.map_map, List.mem_map] at ho
          obtain ⟨r, hr, rfl⟩ := ho
          exact dnfStage_ok m2 _ (h2 r hr))]
      simp only [ok_bind, pure_bind, List.map_map]
      rfl

/-- C1: for every row with both probability columns present, the
combiner assigns final_prediction by DNF-first precedence with strict
thresholds: DNF when dnf_probability is above 0.5, else Top-10 when
top10_probability is above 0.5, else Outside Top-10; in particular
(dnf 0.6, top10 0.9) yields DNF and (dnf 0.5, top10 0.5) yields
Outside Top-10. -/
theorem C1_dnf_first_precedence (r : PredRow) (t d : ℚ)
    (ht : r.top10_probability = some t) (hd : r.dnf_probability = some d) :
    (d > mkRat 1 2 → finalPredictionOfRow r = .ok "DNF") ∧
    (¬ d > mkRat 1 2 → t > mkRat 1 2 → finalPredictionOfRow r = .ok "Top-10") ∧
    (¬ d > mkRat 1 2 → ¬ t > mkRat 1 2 →
      finalPredictionOfRow r = .ok "Outside Top-10") ∧
    finalPredictionOfRow ⟨some (mkRat 9 10), some (mkRat 6 10), none, none⟩ =
      .ok "DNF" ∧
    finalPredictionOfRow ⟨some (mkRat 1 2), some (mkRat 1 2), none, none⟩ =
      .ok "Outside Top-10" := by
  refine ⟨?_, ?_, ?_, by decide, by decide⟩
  · intro hdc
    simp [finalPredictionOfRow, seriesGet, hd, hdc]
  · intro hdc htc
    simp [finalPredictionOfRow, seriesGet, hd, ht, hdc, htc]
  · intro hdc htc
    simp [finalPredictionOfRow, seriesGet, hd, ht, hdc, htc]

/-- Witness for C1: the DNF-precedence row evaluated concretely. -/
theorem C1_witness :
    finalPredictionOfRow ⟨some (mkRat 9 10), some (mkRat 6 10), none, none⟩ =
      .ok "DNF" := by
  exact (C1_dnf_first_precedence ⟨some (mkRat 9 10), some (mkRat 6 10), none, none⟩
    (mkRat 9 10) (mkRat 6 10) rfl rfl).1 (by decide)

/-- C3: every row of the combiner output carries exactly one of the
three labels, the derived booleans are the indicator of
final_prediction (1 iff Top-10 resp. 1 iff DNF), and the output does
not depend on the raw per-model prediction columns, only on the
probabilities. -/
theorem C3_mutual_exclusivity (rows : List PredRow) (out : List CombinedRow)
    (h : combinePredictions rows = .ok out) :
    (∀ c ∈ out,
      exactlyOneLabel c.final_prediction ∧
      (c.top10_prediction = 1 ↔ c.final_prediction = "Top-10") ∧
      (c.dnf_prediction = 1 ↔ c.final_prediction = "DNF")) ∧
    combinePredictions (rows.map stripRawPredictions) = combinePredictions rows := by
  constructor
  · intro c hc
    unfold combinePredictions at h
    cases hm : mapExcept finalPredictionOfRow rows with
    | error e => rw [hm] at h; simp at h
    | ok finals =>
      rw [hm] at h
      simp only [ok_bind, pure_eq_ok, Except.ok.injEq] at h
      subst h
      obtain ⟨f, hf, rfl⟩ := List.mem_map.mp hc
      obtain ⟨a, ha, hfa⟩ := mapExcept_mem finalPredictionOfRow hm f hf
      have hlab := finalPrediction_label hfa
      refine ⟨?_, ?_, ?_⟩
      · rcases hlab with rfl | rfl | rfl
        · exact Or.inr (Or.inl (by simp [exactlyOneLabel]))
        · exact Or.inl (by simp [exactlyOneLabel])
        · exact Or.inr (Or.inr (by simp [exactlyOneLabel]))
      · by_cases hft : f = "Top-10" <;> simp [hft]
      · by_cases hfd : f = "DNF" <;> simp [hfd]
  · unfold combinePredictions
    rw [mapExcept_fPR_strip]

/-- Witness for C3: a concrete row whose raw top10 prediction is 1 but
whose final label is DNF, with the recomputed booleans. -/
theorem C3_witness :
    (exactlyOneLabel "DNF" ∧
      ((0 : ℤ) = 1 ↔ "DNF" = "Top-10") ∧ ((1 : ℤ) = 1 ↔ "DNF" = "DNF")) := by
  have h := C3_mutual_exclusivity
    [⟨some (mkRat 9 10), some (mkRat 6 10), some 1, some 0⟩]
    [⟨"DNF", 0, 1⟩] (by decide)
  exact h.1 ⟨"DNF", 0, 1⟩ (by decide)

/-- C4: evaluating the dashboard combiner on the degraded predict_race
output whose dnf_probability column is absent (only the top10 model
present): the row access raises KeyError and the combiner fails instead
of treating the missing axis as probability 0. -/
theorem C4_missing_column_raises :
    combinePredictions [⟨some (mkRat 7 10), none, some 1, none⟩] =
      .error "KeyError: dnf_probability" := by decide
lemma export_features_ok_elim (cfg : SplitConfig) (t : FeatureTable) (s : Splits)
    (hs : export_features cfg t = .ok s) :
    s.train = (t.rows.insertionSort rowLe).filter
        (fun r => decide (r.year ≤ cfg.trainEndYear)) ∧
    s.val = (t.rows.insertionSort rowLe).filter
        (fun r => cfg.valYears.contains r.year) ∧
    s.test = (t.rows.insertionSort rowLe).filter
        (fun r => cfg.testYears.contains r.year) := by
  unfold export_features runFeatureQuery at hs
  by_cases hcols : requiredQueryCols.all (fun c => t.cols.contains c) = true
  · simp only [hcols, if_true, reduceIte, ok_bind, pure_eq_ok, Except.ok.injEq] at hs
    subst hs
    exact ⟨rfl, rfl, rfl⟩
  · simp only [hcols, if_false, reduceIte, Bool.false_eq_true, error_bind] at hs
    cases hs

/-- C2: under the configuration validity precondition every row of the
feature table lands in at most one split: a row with year at most
train_end_year is in train only, a row with year in val_years is in val
only, a row with year in test_years is in test only, and a row matching
none of the ranges is in no split. -/
theorem C2_split_disjointness (cfg : SplitConfig) (t : FeatureTable) (s : Splits)
    (r : FeatureRow)
    (hvne : cfg.valYears ≠ [])
    (h1 : ∀ y ∈ cfg.valYears, cfg.trainEndYear < y)
    (h2 : ∀ v ∈ cfg.valYears, ∀ u ∈ cfg.testYears, v ≤ u)
    (h3 : ∀ y ∈ cfg.valYears, y ∉ cfg.testYears)
    (hs : export_features cfg t = .ok s)
    (hr : r ∈ t.rows) :
    (¬ (r ∈ s.train ∧ r ∈ s.val)) ∧
    (¬ (r ∈ s.train ∧ r ∈ s.test)) ∧
    (¬ (r ∈ s.val ∧ r ∈ s.test)) ∧
    (r.year ≤ cfg.trainEndYear → r ∈ s.train ∧ r ∉ s.val ∧ r ∉ s.test) ∧
    (r.year ∈ cfg.valYears → r ∈ s.val ∧ r ∉ s.train ∧ r ∉ s.test) ∧
    (r.year ∈ cfg.testYears → r ∈ s.test ∧ r ∉ s.train ∧ r ∉ s.val) ∧
    (¬ r.year ≤ cfg.trainEndYear → r.year ∉ cfg.valYears → r.year ∉ cfg.testYears →
      r ∉ s.train ∧ r ∉ s.val ∧ r ∉ s.test) := by
  obtain ⟨htr, hv, hte⟩ := export_features_ok_elim cfg t s hs
  have htrain : r ∈ s.train ↔ r.year ≤ cfg.trainEndYear := by
    rw [htr]
    simp [List.mem_filter, List.mem_insertionSort, hr]
  have hval : r ∈ s.val ↔ r.year ∈ cfg.valYears := by
    rw [hv]
    simp [List.mem_filter, List.mem_insertionSort, hr]
  have htest : r ∈ s.test ↔ r.year ∈ cfg.testYears := by
    rw [hte]
    simp [List.mem_filter, List.mem_insertionSort, hr]
  obtain ⟨v0, hv0⟩ := List.exists_mem_of_ne_nil _ hvne
  have htv : ∀ u ∈ cfg.testYears, cfg.trainEndYear < u := by
    intro u hu
    exact lt_of_lt_of_le (h1 v0 hv0) (h2 v0 hv0 u hu)
  rw [htrain, hval, htest]
  refine ⟨?_, ?_, ?_, ?_, ?_, ?_, ?_⟩
  · rintro ⟨ha, hb⟩
    exact absurd ha (not_le.mpr (h1 _ hb))
  · rintro ⟨ha, hb⟩
    exact absurd ha (not_le.mpr (htv _ hb))
  · rintro ⟨ha, hb⟩
    exact h3 _ ha hb
  · intro ha
    exact ⟨ha, fun hb => absurd ha (not_le.mpr (h1 _ hb)),
      fun hb => absurd ha (not_le.mpr (htv _ hb))⟩
  · intro ha
    exact ⟨ha, fun hb => absurd hb (not_le.mpr (h1 _ ha)), h3 _ ha⟩
  · intro ha
    exact ⟨ha, fun hb => absurd hb (not_le.mpr (htv _ ha)), fun hb => h3 _ hb ha⟩
  · intro ha hb hc
    exact ⟨ha, hb, hc⟩

/-- Witness for C2: the default configuration on a three-row table. -/
theorem C2_witness :
    ((⟨1, 2015, 1⟩ : FeatureRow) ∈
        (Splits.mk [⟨1, 2015, 1⟩] [⟨2, 2017, 1⟩] [⟨3, 2019, 1⟩]).train ∧
      (⟨1, 2015, 1⟩ : FeatureRow) ∉
        (Splits.mk [⟨1, 2015, 1⟩] [⟨2, 2017, 1⟩] [⟨3, 2019, 1⟩]).val ∧
      (⟨1, 2015, 1⟩ : FeatureRow) ∉
        (Splits.mk [⟨1, 2015, 1⟩] [⟨2, 2017, 1⟩] [⟨3, 2019, 1⟩]).test) := by
  have h := C2_split_disjointness
    ⟨2016, [2017, 2018], [2019, 2020]⟩
    ⟨["year", "round", "result_id"], [⟨1, 2015, 1⟩, ⟨2, 2017, 1⟩, ⟨3, 2019, 1⟩]⟩
    (Splits.mk [⟨1, 2015, 1⟩] [⟨2, 2017, 1⟩] [⟨3, 2019, 1⟩])
    ⟨1, 2015, 1⟩
    (by decide) (by decide) (by decide) (by decide) (by decide) (by decide)
  exact (h.2.2.2.1 (by decide))
lemma list_contains_iff {α : Type} [BEq α] [LawfulBEq α] (l : List α) (a : α) :
    l.contains a = true ↔ a ∈ l := by
  simp [List.contains, List.elem_iff]

/-- C5 counterexample: a configuration violating every split-validity
condition (train_end_year 2018, val_years [2017], test_years [2017]) is
invalid, yet configuration load accepts it without error, and
export_features then applies it silently, placing the 2017 row in all
three splits at once. -/
theorem C5_counterexample :
    ¬ splitConfigValid ⟨2018, [2017], [2017]⟩ ∧
    loadConfig 2018 [2017] [2017] = .ok ⟨2018, [2017], [2017]⟩ ∧
    export_features ⟨2018, [2017], [2017]⟩
        ⟨["year", "round", "result_id"], [⟨1, 2017, 1⟩]⟩ =
      .ok ⟨[⟨1, 2017, 1⟩], [⟨1, 2017, 1⟩], [⟨1, 2017, 1⟩]⟩ := by
  refine ⟨by decide, rfl, by decide⟩

/-- C5 amended: the split-validity conditions are checked neither at
configuration load nor at split time: load accepts every year
configuration, and export_features applies any configuration to any
table whose schema contains the queried columns, returning splits
without complaint. -/
theorem C5_no_validation (te : ℤ) (v u : List ℤ) :
    loadConfig te v u = .ok ⟨te, v, u⟩ ∧
    (∀ t : FeatureTable, requiredQueryCols.all (fun c => t.cols.contains c) = true →
      ∃ s, export_features ⟨te, v, u⟩ t = .ok s) := by
  refine ⟨rfl, ?_⟩
  intro t ht
  refine ⟨⟨(t.rows.insertionSort rowLe).filter (fun r => decide (r.year ≤ te)),
           (t.rows.insertionSort rowLe).filter (fun r => v.contains r.year),
           (t.rows.insertionSort rowLe).filter (fun r => u.contains r.year)⟩, ?_⟩
  unfold export_features runFeatureQuery
  rw [ht]
  rfl

/-- Witness for C5 amended: the violating configuration of the
counterexample is loaded and split without error. -/
theorem C5_witness :
    loadConfig 2018 [2017] [2017] = .ok ⟨2018, [2017], [2017]⟩ ∧
    ∃ s, export_features ⟨2018, [2017], [2017]⟩
        ⟨["year", "round", "result_id"], [⟨1, 2017, 1⟩]⟩ = .ok s := by
  have h := C5_no_validation 2018 [2017] [2017]
  exact ⟨h.1, h.2 ⟨["year", "round", "result_id"], [⟨1, 2017, 1⟩]⟩ (by decide)⟩

/-- C6: for any input column list, the feature_columns component of
get_feature_columns contains no column of the ten-element exclusion set,
and contains every input column that is not in the exclusion set. -/
theorem C6_feature_columns (cols : List String) (c : String) :
    (c ∈ exclude_cols → c ∉ (get_feature_columns cols).1) ∧
    (c ∈ cols → c ∉ exclude_cols → c ∈ (get_feature_columns cols).1) := by
  constructor
  · intro hex hmem
    have h2 := (List.mem_filter.mp hmem).2
    rw [Bool.not_eq_true'] at h2
    exact absurd ((list_contains_iff _ _).mpr hex) (by rw [h2]; simp)
  · intro hc hex
    apply List.mem_filter.mpr
    refine ⟨hc, ?_⟩
    cases hcc : exclude_cols.contains c with
    | true => exact absurd ((list_contains_iff _ _).mp hcc) hex
    | false => simp

/-- Witness for C6: grid_position survives, target_top_10 is excluded. -/
theorem C6_witness :
    "grid_position" ∈
      (get_feature_columns
        ["result_id", "year", "grid_position", "target_top_10"]).1 ∧
    "target_top_10" ∉
      (get_feature_columns
        ["result_id", "year", "grid_position", "target_top_10"]).1 := by
  constructor
  · exact (C6_feature_columns
      ["result_id", "year", "grid_position", "target_top_10"] "grid_position").2
      (by decide) (by decide)
  · exact (C6_feature_columns
      ["result_id", "year", "grid_position", "target_top_10"] "target_top_10").1
      (by decide)

/-- C7 counterexample: an empty source table with a full schema does not
raise; export_features silently returns a result of three empty splits,
contrary to the claim that an empty table surfaces a data-access
error. -/
theorem C7_counterexample :
    export_features ⟨2016, [2017, 2018], [2019, 2020]⟩
      ⟨["result_id", "race_id", "driver_id", "constructor_id", "circuit_id",
        "year", "round", "race_date", "grid_position", "qualifying_position",
        "target_top_10", "target_dnf"], []⟩ = .ok ⟨[], [], []⟩ := by decide

/-- C7 amended: a table schema missing a required column makes
export_features surface the underlying data-access error, but an empty
table with an intact schema silently returns three empty splits. -/
theorem C7_missing_columns (cfg : SplitConfig) (t : FeatureTable) :
    (¬ ("year" ∈ t.cols ∧ "round" ∈ t.cols ∧ "result_id" ∈ t.cols) →
      export_features cfg t =
        .error "Binder Error: column referenced by the feature query does not exist") ∧
    (t.rows = [] → ("year" ∈ t.cols ∧ "round" ∈ t.cols ∧ "result_id" ∈ t.cols) →
      export_features cfg t = .ok ⟨[], [], []⟩) := by
  constructor
  · intro hmiss
    unfold export_features runFeatureQuery
    by_cases hq : requiredQueryCols.all (fun c => t.cols.contains c) = true
    · exfalso
      apply hmiss
      simp only [requiredQueryCols, List.all_cons, List.all_nil, Bool.and_true,
        Bool.and_eq_true] at hq
      exact ⟨(list_contains_iff _ _).mp hq.1, (list_contains_iff _ _).mp hq.2.1,
        (list_contains_iff _ _).mp hq.2.2⟩
    · rw [Bool.not_eq_true] at hq
      rw [hq]
      rfl
  · intro hrows hcols
    have hq : requiredQueryCols.all (fun c => t.cols.contains c) = true := by
      simp only [requiredQueryCols, List.all_cons, List.all_nil, Bool.and_true,
        Bool.and_eq_true]
      exact ⟨(list_contains_iff _ _).mpr hcols.1, (list_contains_iff _ _).mpr hcols.2.1,
        (list_contains_iff _ _).mpr hcols.2.2⟩
    unfold export_features runFeatureQuery
    rw [hq, hrows]
    rfl

/-- Witness for C7 amended: a schema lacking the year column errors; the
empty full-schema table returns empty splits. -/
theorem C7_witness :
    export_features ⟨2016, [2017, 2018], [2019, 2020]⟩
        ⟨["round", "result_id"], [⟨1, 2015, 1⟩]⟩ =
      .error "Binder Error: column referenced by the feature query does not exist" ∧
    export_features ⟨2016, [2017, 2018], [2019, 2020]⟩
        ⟨["year", "round", "result_id"], []⟩ = .ok ⟨[], [], []⟩ := by
  constructor
  · exact (C7_missing_columns ⟨2016, [2017, 2018], [2019, 2020]⟩
      ⟨["round", "result_id"], [⟨1, 2015, 1⟩]⟩).1 (by decide)
  · exact (C7_missing_columns ⟨2016, [2017, 2018], [2019, 2020]⟩
      ⟨["year", "round", "result_id"], []⟩).2 rfl (by decide)

/-- C8: with only the top10 model present predict_race succeeds, every
output row has the top10 probability and prediction populated, no dnf
column is added to the frame, and loading with no model at all raises
FileNotFoundError. -/
theorem C8_graceful_degradation (ρ : Type) (rows : List ρ) (m : Model ρ)
    (baseCols : List String)
    (hlen : ∀ r ∈ rows, probaIndex m < (m.proba r).length) :
    (∃ out, predict_race rows ⟨some m, none⟩ = .ok out ∧
      out.length = rows.length ∧
      ∀ o ∈ out, o.top10_probability.isSome ∧ o.top10_prediction.isSome ∧
        o.dnf_probability = none ∧ o.dnf_prediction = none) ∧
    predict_race_columns baseCols (Models.mk (some m) none) =
      baseCols ++ ["top10_probability", "top10_prediction"] ∧
    @load_models ρ none none = .error "No trained models found" := by
  refine ⟨?_, ?_, rfl⟩
  · have hchar := predict_race_char rows ⟨some m, none⟩
      (fun m2 hm2 => by injection hm2 with e; subst e; exact hlen)
      (fun m2 hm2 => by cases hm2)
    refine ⟨rows.map (expectedPredRow ⟨some m, none⟩), hchar, by simp, ?_⟩
    intro o ho
    obtain ⟨r, hr, rfl⟩ := List.mem_map.mp ho
    simp [expectedPredRow]
  · simp [predict_race_columns]

/-- Witness for C8: one row, one concrete two-class top10 model. -/
theorem C8_witness :
    ∃ out, predict_race [()]
        (Models.mk (some ⟨2, fun _ => [mkRat 1 4, mkRat 3 4], fun _ => 1⟩) none) =
      .ok out ∧
      out.length = 1 ∧
      ∀ o ∈ out, o.top10_probability.isSome ∧ o.top10_prediction.isSome ∧
        o.dnf_probability = none ∧ o.dnf_prediction = none := by
  exact (C8_graceful_degradation Unit [()]
    ⟨2, fun _ => [mkRat 1 4, mkRat 3 4], fun _ => 1⟩ ["year"] (by decide)).1

/-- C9: when a model saw a single class and its predict_proba output has
a single column, predict_race takes the probability from column 0 (the
sole available column), still produces the per-row probability columns,
and raises no error. -/
theorem C9_single_class (ρ : Type) (rows : List ρ) (m1 m2 : Model ρ)
    (hs1 : m1.shape1 = 1) (hs2 : m2.shape1 = 1)
    (hl1 : ∀ r ∈ rows, (m1.proba r).length = 1)
    (hl2 : ∀ r ∈ rows, (m2.proba r).length = 1) :
    ∃ out, predict_race rows ⟨some m1, some m2⟩ = .ok out ∧
      out.length = rows.length ∧
      ∀ o ∈ out, o.top10_probability = (m1.proba o.base)[0]? ∧
        o.dnf_probability = (m2.proba o.base)[0]? := by
  have hidx1 : probaIndex m1 = 0 := by simp [probaIndex, hs1]
  have hidx2 : probaIndex m2 = 0 := by simp [probaIndex, hs2]
  have hchar := predict_race_char rows ⟨some m1, some m2⟩
    (fun m hm => by
      injection hm with e; subst e
      intro r hr; rw [hidx1, hl1 r hr]; norm_num)
    (fun m hm => by
      injection hm with e; subst e
      intro r hr; rw [hidx2, hl2 r hr]; norm_num)
  refine ⟨rows.map (expectedPredRow ⟨some m1, some m2⟩), hchar, by simp, ?_⟩
  intro o ho
  obtain ⟨r, hr, rfl⟩ := List.mem_map.mp ho
  obtain ⟨p1, hp1⟩ := List.length_eq_one.mp (hl1 r hr)
  obtain ⟨p2, hp2⟩ := List.length_eq_one.mp (hl2 r hr)
  constructor
  · show some (positiveProbaVal m1 r) = (m1.proba r)[0]?
    rw [positiveProbaVal, hidx1, hp1]
    rfl
  · show some (positiveProbaVal m2 r) = (m2.proba r)[0]?
    rw [positiveProbaVal, hidx2, hp2]
    rfl

/-- Witness for C9: two concrete degenerate single-column models. -/
theorem C9_witness :
    ∃ out, predict_race [()]
        (Models.mk (some ⟨1, fun _ => [mkRat 3 4], fun _ => 1⟩)
                   (some ⟨1, fun _ => [mkRat 1 4], fun _ => 0⟩)) =
      .ok out ∧
      out.length = 1 ∧
      ∀ o ∈ out,
        o.top10_probability =
          ((⟨1, fun _ => [mkRat 3 4], fun _ => 1⟩ : Model Unit).proba o.base)[0]? ∧
        o.dnf_probability =
          ((⟨1, fun _ => [mkRat 1 4], fun _ => 0⟩ : Model Unit).proba o.base)[0]? := by
  exact C9_single_class Unit [()]
    ⟨1, fun _ => [mkRat 3 4], fun _ => 1⟩
    ⟨1, fun _ => [mkRat 1 4], fun _ => 0⟩
    rfl rfl (by decide) (by decide)

/-- C10: the batch and DB prediction outputs carry the raw per-model
predictions and no final_prediction column: predict_from_db restricts to
a hard-coded column list that lacks final_prediction, batch_predict
returns the predict_race columns which add only the four per-model
columns, predict_race output rows carry exactly the raw model
predictions, and on a concrete input both boolean predictions are 1 on
the same row. -/
theorem C10_raw_predictions :
    (∀ predCols : List String, "final_prediction" ∉ predict_from_db_cols predCols) ∧
    (∀ (ρ : Type) (baseCols : List String) (ms : Models ρ),
      "final_prediction" ∉ baseCols →
      "final_prediction" ∉ batch_predict_columns baseCols ms) ∧
    (∀ (ρ : Type) (rows : List ρ) (m1 m2 : Model ρ),
      (∀ r ∈ rows, probaIndex m1 < (m1.proba r).length) →
      (∀ r ∈ rows, probaIndex m2 < (m2.proba r).length) →
      predict_race rows ⟨some m1, some m2⟩ = .ok (rows.map (fun r =>
        ⟨r, some (positiveProbaVal m1 r), some (m1.pred r),
            some (positiveProbaVal m2 r), some (m2.pred r)⟩))) ∧
    predict_race [()]
        (Models.mk (some ⟨2, fun _ => [mkRat 3 10, mkRat 7 10], fun _ => 1⟩)
                   (some ⟨2, fun _ => [mkRat 4 10, mkRat 6 10], fun _ => 1⟩)) =
      .ok [⟨(), some (mkRat 7 10), some 1, some (mkRat 6 10), some 1⟩] := by
  refine ⟨?_, ?_, ?_, ?_⟩
  · intro predCols h
    exact absurd (List.mem_filter.mp h).1 (by decide)
  · intro ρ baseCols ms hbase hmem
    obtain ⟨t, d⟩ := ms
    unfold batch_predict_columns predict_race_columns at hmem
    simp only [List.mem_append] at hmem
    rcases hmem with (h | h) | h
    · exact hbase h
    · cases t with
      | none => exact absurd h (by simp)
      | some m => exact absurd h (by simp)
    · cases d with
      | none => exact absurd h (by simp)
      | some m => exact absurd h (by simp)
  · intro ρ rows m1 m2 h1 h2
    exact predict_race_char rows ⟨some m1, some m2⟩
      (fun m hm => by injection hm with e; subst e; exact h1)
      (fun m hm => by injection hm with e; subst e; exact h2)
  · rfl

/-- Witness for C10: the raw-output characterization applied to the
concrete pair of models that predict 1 on both axes. -/
theorem C10_witness :
    predict_race [()]
        (Models.mk (some ⟨2, fun _ => [mkRat 3 10, mkRat 7 10], fun _ => 1⟩)
                   (some ⟨2, fun _ => [mkRat 4 10, mkRat 6 10], fun _ => 1⟩)) =
      .ok ([()].map (fun r =>
        ⟨r, some (positiveProbaVal
              (⟨2, fun _ => [mkRat 3 10, mkRat 7 10], fun _ => 1⟩ : Model Unit) r),
            some 1,
            some (positiveProbaVal
              (⟨2, fun _ => [mkRat 4 10, mkRat 6 10], fun _ => 1⟩ : Model Unit) r),
            some 1⟩)) := by
  exact C10_raw_predictions.2.2.1 Unit [()]
    ⟨2, fun _ => [mkRat 3 10, mkRat 7 10], fun _ => 1⟩
    ⟨2, fun _ => [mkRat 4 10, mkRat 6 10], fun _ => 1⟩
    (by decide) (by decide)
